import Mathlib

/-!
# Verification of the host-side Wishbone transport (`host/ok_wishbone.py`)

This file gives a shallow embedding of the `Wishbone` class from
`host/ok_wishbone.py`: command encoding (`_encode`), request batching
(`queue`), flushing with response demultiplexing (`flush_queue`), and the
high-level operations (`read`, `write`, `modify`, `burst_read`,
`burst_write`).

Modelling conventions:
* Python byte strings are `List Nat` with each entry a byte value.
* Python exceptions are modelled with `Except` / `Option WBError`: an
  operation that raises returns the error instead of a result.
* The Opal Kelly front panel (`self.xem`) is an oracle
  `Xem : List Nat → Nat → List Nat` mapping the written buffer and the
  requested read length to the bytes the device answers; `flush_queue`
  forces the response to the exact requested length, matching
  `ReadFromBlockPipeOut` filling a preallocated `bytearray`.
* Each transport round trip is recorded in a `log` field of the state so
  that "a flush happened" is observable; the log holds the written
  buffers in order.
-/

namespace OkWishbone

/-- `MAX_FIFO_SIZE = (2 * 1024 - 300) * 4` from the source. -/
def MAX_FIFO_SIZE : Nat := (2 * 1024 - 300) * 4

/-- `MAX_BURST_SIZE = 8191` from the source. -/
def MAX_BURST_SIZE : Nat := 8191

/-- Errors raised by the transport layer.  Python `assert` failures inside
handlers are modelled structurally: a header-echo mismatch, a non-zero
timeout word (carrying the echoed address, as the message does), and an
address-echo mismatch.  `assertionError` covers the remaining bare
asserts, `structError` a `struct.pack`/`struct.unpack` size mismatch and
`pyError` other dynamic failures. -/
inductive WBError where
  | assertionError : String → WBError
  | structError : WBError
  | pyError : String → WBError
  | headerMismatch : WBError
  | timeout : Nat → WBError
  | addrMismatch : WBError
deriving Repr, DecidableEq

/-- The value a completion handler stores into its closure cell:
`write`-style handlers store nothing, `read`/`modify` store one word,
`burst_read` stores the tuple of payload words. -/
inductive HVal where
  | unit : HVal
  | word : Nat → HVal
  | words : List Nat → HVal
deriving Repr, DecidableEq

/-- The `data` argument of `_encode`: either a single integer (scalar
operations, default `0`) or a list of words (burst write). -/
inductive EncData where
  | scalar : Nat → EncData
  | list : List Nat → EncData
deriving Repr, DecidableEq

/-- Little-endian serialization of one 32-bit word, as `struct.pack` with
format character `I` produces. -/
def wordToBytesLE (w : Nat) : List Nat :=
  [w % 256, w / 256 % 256, w / 65536 % 256, w / 16777216 % 256]

/-- `struct.pack` with format `<nI`: requires exactly `n` arguments, each
in 32-bit range, and yields their little-endian byte concatenation. -/
def packWords (n : Nat) (ws : List Nat) : Except WBError (List Nat) :=
  if ws.length = n ∧ ws.all (fun w => w < 4294967296) then
    .ok (ws.flatMap wordToBytesLE)
  else
    .error .structError

/-- Group a byte string into little-endian 32-bit words (trailing bytes
that do not fill a word are dropped, as `struct.unpack` never sees them:
it rejects ill-sized input beforehand). -/
def bytesToWords : List Nat → List Nat
  | b0 :: b1 :: b2 :: b3 :: rest =>
      (b0 + b1 * 256 + b2 * 65536 + b3 * 16777216) :: bytesToWords rest
  | _ => []

/-- `struct.unpack` with format `<nI`: the input must be exactly `4 * n`
bytes, and decodes to `n` little-endian words. -/
def unpack (n : Nat) (res : List Nat) : Except WBError (List Nat) :=
  if res.length = 4 * n then .ok (bytesToWords res) else .error .structError

/-- The alignment expression `m + -m % 4` (Python semantics of `%` on a
negative left operand), i.e. `m` rounded up to a multiple of 4.  Both
`_encode` (`total_words`) and `burst_read` (`words`) apply it to
`size + 3`. -/
def pyAlign4 (m : Nat) : Nat := m + (4 - m % 4) % 4

/-- `Wishbone._encode`.  The four checked arguments are taken as `Int` so
that the `assert 0 <= _` guards are meaningful; `seq` is the current
sequence counter.  Returns the `(header, command bytes)` pair (or the
raised error) together with the new sequence counter: the counter is
untouched when an argument assert fires and incremented afterwards. -/
def _encode (seq : Nat) (cmd size block_position addr_incr : Int)
    (addr mask : Nat) (data : EncData) :
    Except WBError (Nat × List Nat) × Nat :=
  if ¬ (0 ≤ cmd ∧ cmd < 4) then (.error (.assertionError "cmd is 2 bit"), seq)
  else if ¬ (0 ≤ size ∧ size < 8192) then (.error (.assertionError "size is 13 bit"), seq)
  else if ¬ (0 ≤ block_position ∧ block_position < 2) then (.error (.assertionError "size is 1 bit"), seq)
  else if ¬ (0 ≤ addr_incr ∧ addr_incr < 256) then (.error (.assertionError "size is 8 bit"), seq)
  else
    let c := cmd.toNat
    let sz := size.toNat
    let bp := block_position.toNat
    let ai := addr_incr.toNat
    let header := c ||| (sz <<< 2) ||| ((seq &&& 255) <<< 15) ||| (bp <<< 23) ||| (ai <<< 24)
    let seq' := seq + 1
    let total_words := pyAlign4 (sz + 3)
    let footer_dummy_size := total_words - sz - 3
    let packed : Except WBError (List Nat) :=
      if c = 0 ∨ sz = 1 then
        match data with
        | .scalar d => packWords 4 ([header, addr, mask] ++ [d])
        | .list _ => .error (.pyError "struct.pack requires an integer")
      else
        match data with
        | .scalar _ => .error (.pyError "int object is not subscriptable")
        | .list l =>
          if sz ≤ l.length then
            let body := [header, addr, mask] ++ l.take sz
            let body := if c = 1 ∧ 1 < sz then body ++ List.replicate footer_dummy_size mask else body
            packWords total_words body
          else .error (.pyError "list index out of range")
    match packed with
    | .ok bytes => (.ok (header, bytes), seq')
    | .error e => (.error e, seq')

/-- A queued completion handler: consumes its response byte slice and
either raises or stores a value. -/
def Handler := List Nat → Except WBError HVal

/-- The Opal Kelly front panel oracle: written buffer and requested read
length to answered bytes. -/
def Xem := List Nat → Nat → List Nat

/-- The mutable state of a `Wishbone` instance: the sequence counter, the
queued `[read_size, handler]` pairs, the outgoing byte buffer, the running
sum of expected response sizes, and (model instrumentation) the log of
buffers written to the device, one entry per transport round trip. -/
structure WBState where
  seq : Nat
  cmd_queue : List (Nat × Handler)
  cmd_buffer : List Nat
  cmd_queue_output_size : Nat
  log : List (List Nat)

/-- The state right after `__init__`. -/
def initialState : WBState :=
  { seq := 0, cmd_queue := [], cmd_buffer := [], cmd_queue_output_size := 0, log := [] }

/-- Force a byte string to an exact length, padding with zero bytes: the
response buffer is a preallocated `bytearray` of the expected size. -/
def fixLen (n : Nat) (xs : List Nat) : List Nat :=
  xs.take n ++ List.replicate (n - xs.length) 0

/-- The demultiplexing loop of `flush_queue`: walk the queue keeping a
running `res_offset`, hand each handler the slice
`res_sum[res_offset : res_offset + read_size]`, and record each outcome in
order. -/
def demuxLoop (res_sum : List Nat) : Nat → List (Nat × Handler) → List (Except WBError HVal)
  | _, [] => []
  | off, (read_size, h) :: rest =>
      h ((res_sum.drop off).take read_size) :: demuxLoop res_sum (off + read_size) rest

/-- The error a handler outcome raised, if any. -/
def errOf : Except WBError HVal → Option WBError
  | .error e => some e
  | .ok _ => none

/-- The `first_exception` accumulation of `flush_queue`: keep the first
recorded error, otherwise adopt the current outcome's error. -/
def firstExc : Option WBError → List (Except WBError HVal) → Option WBError
  | acc, [] => acc
  | acc, r :: rest =>
      firstExc (match acc with | some e => some e | none => errOf r) rest

/-- The observable outcome of `flush_queue`: the state afterwards, the
handler outcomes in queue order, and the exception propagated to the
caller (`none` when the flush returns normally). -/
structure FlushOut where
  state : WBState
  results : List (Except WBError HVal)
  err : Option WBError

/-- `Wishbone.flush_queue`.  No-op on an empty queue; then the
`assert min(len(cmd_buffer), cmd_queue_output_size) <= MAX_FIFO_SIZE`
guard; then one write-then-read round trip, the demultiplexing loop,
unconditional clearing of the queue state, and re-raising the first
recorded handler error. -/
def flush_queue (xem : Xem) (s : WBState) : FlushOut :=
  if s.cmd_queue.length = 0 then ⟨s, [], none⟩
  else if MAX_FIFO_SIZE < min s.cmd_buffer.length s.cmd_queue_output_size then
    ⟨s, [], some (.assertionError "fifo capacity")⟩
  else
    let res_sum := fixLen s.cmd_queue_output_size (xem s.cmd_buffer s.cmd_queue_output_size)
    let results := demuxLoop res_sum 0 s.cmd_queue
    { state := { s with cmd_queue := [], cmd_buffer := [],
                        cmd_queue_output_size := 0, log := s.log ++ [s.cmd_buffer] },
      results := results,
      err := firstExc none results }

/-- The append step of `Wishbone.queue`: extend the output buffer with
the command bytes, the queue with the `[read_size, handler]` pair and the
expected-size counter by `read_size`. -/
def enqueueState (cmd : List Nat) (read_size : Nat) (h : Handler) (s : WBState) : WBState :=
  { s with cmd_buffer := s.cmd_buffer ++ cmd,
           cmd_queue := s.cmd_queue ++ [(read_size, h)],
           cmd_queue_output_size := s.cmd_queue_output_size + read_size }

/-- `Wishbone.queue`.  Flush first when
`min(len(cmd_buffer) + len(cmd), cmd_queue_output_size + read_size)`
exceeds `MAX_FIFO_SIZE`; a raised flush error propagates and skips the
append; otherwise append the command bytes, the `[read_size, handler]`
pair and the expected size. -/
def queue (xem : Xem) (cmd : List Nat) (read_size : Nat) (h : Handler)
    (s : WBState) : Option WBError × WBState :=
  if MAX_FIFO_SIZE < min (s.cmd_buffer.length + cmd.length) (s.cmd_queue_output_size + read_size)
  then
    match (flush_queue xem s).err with
    | some e => (some e, (flush_queue xem s).state)
    | none => (none, enqueueState cmd read_size h (flush_queue xem s).state)
  else (none, enqueueState cmd read_size h s)

/-- The single-word value a handler stored (`0` when it stored none). -/
def hvalWord : HVal → Nat
  | .word w => w
  | _ => 0

/-- The word-list value a handler stored (`[]` when it stored none). -/
def hvalWords : HVal → List Nat
  | .words ws => ws
  | _ => []

/-- The stored value of a non-raising handler outcome. -/
def okVal : Except WBError HVal → HVal
  | .ok v => v
  | .error _ => .unit

/-- Python truthiness of a transaction flag used as the 1-bit
`block_position`. -/
def boolInt (b : Bool) : Int := if b then 1 else 0

/-- The completion handler closure of `Wishbone.read`: unpack four words
`header2, data, addr2, time_out`, assert the header echo, a zero timeout
and the address echo (in that order), and store the data word. -/
def readHandle (header addr : Nat) : Handler := fun res =>
  match unpack 4 res with
  | .error e => .error e
  | .ok ws =>
    let header2 := ws.getD 0 0
    let d := ws.getD 1 0
    let addr2 := ws.getD 2 0
    let time_out := ws.getD 3 0
    if header ≠ header2 then .error .headerMismatch
    else if time_out ≠ 0 then .error (.timeout addr2)
    else if addr ≠ addr2 then .error .addrMismatch
    else .ok (.word d)

/-- The completion handler closure of `Wishbone.write`: as `readHandle`
but the data word is ignored and nothing is stored. -/
def writeHandle (header addr : Nat) : Handler := fun res =>
  match unpack 4 res with
  | .error e => .error e
  | .ok ws =>
    let header2 := ws.getD 0 0
    let addr2 := ws.getD 2 0
    let time_out := ws.getD 3 0
    if header ≠ header2 then .error .headerMismatch
    else if time_out ≠ 0 then .error (.timeout addr2)
    else if addr ≠ addr2 then .error .addrMismatch
    else .ok .unit

/-- The completion handler closure of `Wishbone.modify`: as `readHandle`,
storing the old data word. -/
def modifyHandle (header addr : Nat) : Handler := fun res =>
  match unpack 4 res with
  | .error e => .error e
  | .ok ws =>
    let header2 := ws.getD 0 0
    let old_data := ws.getD 1 0
    let addr2 := ws.getD 2 0
    let time_out := ws.getD 3 0
    if header ≠ header2 then .error .headerMismatch
    else if time_out ≠ 0 then .error (.timeout addr2)
    else if addr ≠ addr2 then .error .addrMismatch
    else .ok (.word old_data)

/-- The completion handler closure of `Wishbone.burst_read`: unpack
`words` words, take `res[1 : size + 1]` as payload, `res[-2]` as the
echoed address and `res[-1]` as the timeout word, assert the header echo,
a zero timeout and the incremented address echo, and store the payload. -/
def burstReadHandle (header addr size addr_incr words : Nat) : Handler := fun res =>
  match unpack words res with
  | .error e => .error e
  | .ok ws =>
    let header2 := ws.getD 0 0
    let d := (ws.drop 1).take size
    let addr2 := ws.getD (ws.length - 2) 0
    let time_out := ws.getD (ws.length - 1) 0
    if header ≠ header2 then .error .headerMismatch
    else if time_out ≠ 0 then .error (.timeout addr2)
    else if addr + (size - 1) * addr_incr ≠ addr2 then .error .addrMismatch
    else .ok (.words d)

/-- The completion handler closure of `Wishbone.burst_write`: a four-word
response, assert the header echo, a zero timeout and the incremented
address echo; nothing is stored. -/
def burstWriteHandle (header addr size addr_incr : Nat) : Handler := fun res =>
  match unpack 4 res with
  | .error e => .error e
  | .ok ws =>
    let header2 := ws.getD 0 0
    let addr2 := ws.getD 2 0
    let time_out := ws.getD 3 0
    if header ≠ header2 then .error .headerMismatch
    else if time_out ≠ 0 then .error (.timeout addr2)
    else if addr + (size - 1) * addr_incr ≠ addr2 then .error .addrMismatch
    else .ok .unit

/-- The value an operation returns to its caller: either an already
resolved value (eager mode) or the zero-argument `fetch` accessor
(deferred mode). -/
inductive OpRet (α : Type) where
  | value : α → OpRet α
  | accessor : (WBState → Except WBError α × WBState) → OpRet α

/-- Lift a function over the resolved value of an operation result
(list-wrapping in `burst_read` of size one). -/
def OpRet.mapVal (g : α → β) : OpRet α → OpRet β
  | .value a => .value (g a)
  | .accessor f => .accessor (fun st => let p := f st; (p.1.map g, p.2))

/-- The `fetch` closure of a word-valued operation at queue position
`idx`: flush, re-raise the flush error if any, otherwise return the word
this operation's handler stored. -/
def fetchWord (xem : Xem) (idx : Nat) : WBState → Except WBError Nat × WBState :=
  fun st =>
    match (flush_queue xem st).err with
    | some e => (.error e, (flush_queue xem st).state)
    | none => (.ok (hvalWord (okVal ((flush_queue xem st).results.getD idx (.ok .unit)))),
               (flush_queue xem st).state)

/-- The `fetch` closure of `burst_read` at queue position `idx`. -/
def fetchWords (xem : Xem) (idx : Nat) : WBState → Except WBError (List Nat) × WBState :=
  fun st =>
    match (flush_queue xem st).err with
    | some e => (.error e, (flush_queue xem st).state)
    | none => (.ok (hvalWords (okVal ((flush_queue xem st).results.getD idx (.ok .unit)))),
               (flush_queue xem st).state)

/-- `Wishbone.read`: encode a single read command, enqueue it with a
16-byte expected response, and either return the `fetch` accessor
(`future=True`) or run it at once. -/
def read (xem : Xem) (addr : Nat) (in_transaction future : Bool) (s : WBState) :
    Except WBError (OpRet Nat) × WBState :=
  match _encode s.seq 0 1 (boolInt in_transaction) 0 addr 0xdeadbeef (.scalar 0) with
  | (.error e, seq') => (.error e, { s with seq := seq' })
  | (.ok (header, cmd), seq') =>
    match queue xem cmd 16 (readHandle header addr) { s with seq := seq' } with
    | (some e, s2) => (.error e, s2)
    | (none, s2) =>
      if future then (.ok (.accessor (fetchWord xem (s2.cmd_queue.length - 1))), s2)
      else
        ((fetchWord xem (s2.cmd_queue.length - 1) s2).1.map .value,
         (fetchWord xem (s2.cmd_queue.length - 1) s2).2)

/-- `Wishbone.write`: encode a single write command, enqueue it with a
16-byte expected response, and always flush at once. -/
def write (xem : Xem) (addr d : Nat) (in_transaction : Bool) (s : WBState) :
    Option WBError × WBState :=
  match _encode s.seq 1 1 (boolInt in_transaction) 0 addr 0xdeadbeef (.scalar d) with
  | (.error e, seq') => (some e, { s with seq := seq' })
  | (.ok (header, cmd), seq') =>
    match queue xem cmd 16 (writeHandle header addr) { s with seq := seq' } with
    | (some e, s2) => (some e, s2)
    | (none, s2) => ((flush_queue xem s2).err, (flush_queue xem s2).state)

/-- `Wishbone.modify`: encode a single modify command, enqueue it with a
16-byte expected response, and either return the `fetch` accessor
(`future=True`) or run it at once. -/
def modify (xem : Xem) (addr d mask : Nat) (in_transaction future : Bool) (s : WBState) :
    Except WBError (OpRet Nat) × WBState :=
  match _encode s.seq 2 1 (boolInt in_transaction) 0 addr mask (.scalar d) with
  | (.error e, seq') => (.error e, { s with seq := seq' })
  | (.ok (header, cmd), seq') =>
    match queue xem cmd 16 (modifyHandle header addr) { s with seq := seq' } with
    | (some e, s2) => (.error e, s2)
    | (none, s2) =>
      if future then (.ok (.accessor (fetchWord xem (s2.cmd_queue.length - 1))), s2)
      else
        ((fetchWord xem (s2.cmd_queue.length - 1) s2).1.map .value,
         (fetchWord xem (s2.cmd_queue.length - 1) s2).2)

/-- `Wishbone.burst_read`: size 0 returns the empty list directly, size 1
degrades to a scalar `read` wrapped in a one-element list, and larger
sizes encode one burst read command expecting a
`((size + 3) + -(size + 3) % 4) * 4`-byte response. -/
def burst_read (xem : Xem) (addr size addr_incr : Nat) (in_transaction future : Bool)
    (s : WBState) : Except WBError (OpRet (List Nat)) × WBState :=
  if size = 0 then (.ok (.value []), s)
  else if size = 1 then
    match read xem addr in_transaction false s with
    | (.ok r, s1) => (.ok (r.mapVal (fun w => [w])), s1)
    | (.error e, s1) => (.error e, s1)
  else
    match _encode s.seq 0 (size : Int) (boolInt in_transaction) (addr_incr : Int)
        addr 0xdeadbeef (.scalar 0) with
    | (.error e, seq') => (.error e, { s with seq := seq' })
    | (.ok (header, cmd), seq') =>
      match queue xem cmd (pyAlign4 (size + 3) * 4)
          (burstReadHandle header addr size addr_incr (pyAlign4 (size + 3))) { s with seq := seq' } with
      | (some e, s2) => (.error e, s2)
      | (none, s2) =>
        if future then (.ok (.accessor (fetchWords xem (s2.cmd_queue.length - 1))), s2)
        else
          ((fetchWords xem (s2.cmd_queue.length - 1) s2).1.map .value,
           (fetchWords xem (s2.cmd_queue.length - 1) s2).2)

/-- `Wishbone.burst_write`: an empty list is a no-op, a one-element list
degrades to a scalar `write`, and larger sizes encode one burst write
command expecting a 16-byte response — queued without a flush. -/
def burst_write (xem : Xem) (addr : Nat) (data : List Nat) (addr_incr : Nat)
    (in_transaction : Bool) (s : WBState) : Option WBError × WBState :=
  let size := data.length
  if size = 0 then (none, s)
  else if size = 1 then write xem addr (data.getD 0 0) in_transaction s
  else
    match _encode s.seq 1 (size : Int) (boolInt in_transaction) (addr_incr : Int)
        addr 0xdeadbeef (.list data) with
    | (.error e, seq') => (some e, { s with seq := seq' })
    | (.ok (header, cmd), seq') =>
      queue xem cmd 16 (burstWriteHandle header addr size addr_incr) { s with seq := seq' }

/-! ## Helper definitions and lemmas -/

/-- Default queue entry handed to `List.getD`: size zero, handler storing
nothing. -/
def dfltEntry : Nat × Handler := (0, fun _ => .ok .unit)

/-- The response offset of request `i`: the sum of the expected response
sizes queued before it. -/
def prefixSize (q : List (Nat × Handler)) (i : Nat) : Nat :=
  ((q.take i).map Prod.fst).sum

/-- Specification-side reading of the first-error rule: the first raised
error in queue order, `none` when no handler raised. -/
def firstErrSpec : List (Except WBError HVal) → Option WBError
  | [] => none
  | .error e :: _ => some e
  | .ok _ :: rest => firstErrSpec rest

/-- A device oracle answering all-zero bytes. -/
def xemZ : Xem := fun _ n => List.replicate n 0

/-- A handler that accepts any slice and stores nothing. -/
def hOk : Handler := fun _ => .ok .unit

/-- A device oracle that echoes a well-formed single-word response
`[header, 0, addr, 0]` built from the written frame. -/
def xemEcho : Xem := fun buf n =>
  fixLen n ([(bytesToWords buf).getD 0 0, 0, (bytesToWords buf).getD 1 0, 0].flatMap wordToBytesLE)

/-- The state after one eager `write` of `0xCAFEBABE` to `0x1000` against
`xemEcho`, starting from `initialState`. -/
def sWrite : WBState :=
  { seq := 1, cmd_queue := [], cmd_buffer := [], cmd_queue_output_size := 0,
    log := [[5, 0, 0, 0, 0, 16, 0, 0, 239, 190, 173, 222, 190, 186, 254, 202]] }

/-- A device oracle answering one read at address 0 with value 77. -/
def xemRead77 : Xem := fun _ _ => [4, 0, 0, 0, 77, 0, 0, 0, 0, 0, 0, 0, 0, 0, 0, 0]

/-- The state after one size-1 `burst_read` at address 0 against
`xemRead77`, starting from `initialState`. -/
def sRead77 : WBState :=
  { seq := 1, cmd_queue := [], cmd_buffer := [], cmd_queue_output_size := 0,
    log := [[4, 0, 0, 0, 0, 0, 0, 0, 239, 190, 173, 222, 0, 0, 0, 0]] }

/-- A queue state whose output buffer exceeds `MAX_FIFO_SIZE` while the
expected response total does not. -/
def sBigBuf : WBState :=
  { seq := 0, cmd_queue := [(16, hOk)], cmd_buffer := List.replicate 6996 0,
    cmd_queue_output_size := 16, log := [] }

/-- A queue state in which both the output buffer and the expected
response total exceed `MAX_FIFO_SIZE`. -/
def sBothBig : WBState :=
  { seq := 0, cmd_queue := [(7000, hOk)], cmd_buffer := List.replicate 7000 0,
    cmd_queue_output_size := 7000, log := [] }

/-- A 4016-byte command frame: the encoded size of a burst write of 1000
words. -/
def cmdBig : List Nat := List.replicate 4016 0

/-- A handler that rejects any slice. -/
def hBoom : Handler := fun _ => .error (.assertionError "boom")

/-- A two-request queue state whose first handler raises. -/
def sTwo : WBState :=
  { seq := 0, cmd_queue := [(1, hBoom), (1, hOk)], cmd_buffer := [9],
    cmd_queue_output_size := 2, log := [] }

/-- A well-formed 8-word burst-read response: header 9, payload
`[11, 12, 13, 14, 15]`, echoed address 4, timeout 0. -/
def resW : List Nat := [9, 11, 12, 13, 14, 15, 4, 0].flatMap wordToBytesLE

/-- A well-formed 4-word burst-write response: header 7, echoed address
4, timeout 0. -/
def resW4 : List Nat := [7, 0, 4, 0].flatMap wordToBytesLE

theorem firstExc_some (e : WBError) (l : List (Except WBError HVal)) :
    firstExc (some e) l = some e := by
  induction l with
  | nil => rfl
  | cons r rest ih => simpa [firstExc] using ih

theorem firstExc_eq_spec (l : List (Except WBError HVal)) :
    firstExc none l = firstErrSpec l := by
  induction l with
  | nil => rfl
  | cons r rest ih =>
    cases r with
    | ok v => simpa [firstExc, firstErrSpec, errOf] using ih
    | error e => simp [firstExc, firstErrSpec, errOf, firstExc_some]

theorem demuxLoop_length (res : List Nat) (off : Nat) (q : List (Nat × Handler)) :
    (demuxLoop res off q).length = q.length := by
  induction q generalizing off with
  | nil => rfl
  | cons p rest ih => simp [demuxLoop, ih]

theorem demuxLoop_getD (res : List Nat) (q : List (Nat × Handler)) :
    ∀ (off i : Nat), i < q.length →
      (demuxLoop res off q).getD i (.ok .unit) =
        (q.getD i dfltEntry).2
          ((res.drop (off + prefixSize q i)).take (q.getD i dfltEntry).1) := by
  induction q with
  | nil => intro off i hi; simp at hi
  | cons p rest ih =>
    intro off i hi
    match i with
    | 0 => simp [demuxLoop, prefixSize]
    | Nat.succ j =>
      have hj : j < rest.length := by simpa using hi
      have := ih (off + p.1) j hj
      simp only [demuxLoop, List.getD_cons_succ, prefixSize, List.take_succ_cons,
        List.map_cons, List.sum_cons] at this ⊢
      rw [this]
      ring_nf

/-- A flush that returns normally on a non-empty queue leaves all queue
state cleared and appends one round trip to the log. -/
theorem flush_err_none_clears (xem : Xem) (s : WBState)
    (hne : s.cmd_queue ≠ []) (h : (flush_queue xem s).err = none) :
    (flush_queue xem s).state.cmd_queue = [] ∧
    (flush_queue xem s).state.cmd_buffer = [] ∧
    (flush_queue xem s).state.cmd_queue_output_size = 0 ∧
    (flush_queue xem s).state.log = s.log ++ [s.cmd_buffer] := by
  by_cases h0 : s.cmd_queue.length = 0
  · exact absurd (List.length_eq_zero.mp h0) hne
  · by_cases h1 : MAX_FIFO_SIZE < min s.cmd_buffer.length s.cmd_queue_output_size
    · exfalso
      unfold flush_queue at h
      rw [if_neg h0, if_pos h1] at h
      simp at h
    · unfold flush_queue
      rw [if_neg h0, if_neg h1]
      simp

theorem pyAlign4_ge (m : Nat) : m ≤ pyAlign4 m := by
  unfold pyAlign4; omega

theorem flatMap_wordToBytesLE_length (ws : List Nat) :
    (ws.flatMap wordToBytesLE).length = 4 * ws.length := by
  induction ws with
  | nil => rfl
  | cons w rest ih => simp [wordToBytesLE, ih]; ring

/-- The 32-bit header never overflows `struct.pack`'s `I` range, given the
field bounds checked by `_encode`. -/
theorem header_lt_two_pow_32 (c sz q bp ai : Nat)
    (hc : c < 4) (hsz : sz < 8192) (hbp : bp < 2) (hai : ai < 256) :
    c ||| (sz <<< 2) ||| ((q &&& 255) <<< 15) ||| (bp <<< 23) ||| (ai <<< 24) < 2 ^ 32 := by
  have h255 : q &&& 255 < 256 := by
    have := Nat.and_pow_two_sub_one_eq_mod q 8
    norm_num at this
    omega
  have b1 : c < 2 ^ 32 := by omega
  have b2 : sz <<< 2 < 2 ^ 32 := by rw [Nat.shiftLeft_eq]; norm_num; omega
  have b3 : (q &&& 255) <<< 15 < 2 ^ 32 := by rw [Nat.shiftLeft_eq]; norm_num; omega
  have b4 : bp <<< 23 < 2 ^ 32 := by rw [Nat.shiftLeft_eq]; norm_num; omega
  have b5 : ai <<< 24 < 2 ^ 32 := by rw [Nat.shiftLeft_eq]; norm_num; omega
  exact Nat.or_lt_two_pow
    (Nat.or_lt_two_pow (Nat.or_lt_two_pow (Nat.or_lt_two_pow b1 b2) b3) b4) b5

/-! ## Concrete fixtures for witnesses and counterexamples -/

/-! ## C6: burst frame word-count alignment -/

/-- C6 counterexample: for a burst of size `N = 5` the code computes
`(5 + 3) + -(5 + 3) % 4 = 8` total words — not the 12 words the claim
asserts.  The encoded size-5 burst write frame is indeed 8 words
(32 bytes). -/
theorem C6_total_words_counterexample :
    pyAlign4 (5 + 3) = 8 ∧ pyAlign4 (5 + 3) ≠ 12 ∧
      ((_encode 0 1 5 0 1 0 0xdeadbeef (.list [1, 2, 3, 4, 5])).1.map
        (fun p => p.2.length)) = .ok 32 := by
  refine ⟨by decide, by decide, by rfl⟩

/-- C6 amended: for a burst write/read of size `N`, the total word count
equals `ceil((N + 3) / 4) * 4`; for `N = 1` the total is 4 words, and for
`N = 5` it is 8 words (not 12). -/
theorem C6_total_words_amended (N : Nat) :
    pyAlign4 (N + 3) = (N + 3 + 3) / 4 * 4 ∧
      pyAlign4 (1 + 3) = 4 ∧ pyAlign4 (5 + 3) = 8 := by
  refine ⟨?_, by decide, by decide⟩
  unfold pyAlign4
  omega

/-! ## Operation-level helper lemmas -/

/-- A completed enqueue leaves the just-appended request in the queue. -/
theorem queue_none_ne_nil (xem : Xem) (cmd : List Nat) (rs : Nat) (h : Handler)
    (s s' : WBState) (hq : queue xem cmd rs h s = (none, s')) :
    s'.cmd_queue ≠ [] := by
  unfold queue at hq
  split at hq
  · split at hq
    · simp at hq
    · simp only [Prod.mk.injEq] at hq
      rw [← hq.2]
      simp [enqueueState]
  · simp only [Prod.mk.injEq] at hq
    rw [← hq.2]
    simp [enqueueState]

/-- A successful `fetch` of a word-valued operation flushed the queue:
the state it returns is fully drained. -/
theorem fetchWord_ok_clears (xem : Xem) (idx : Nat) (st : WBState)
    (hne : st.cmd_queue ≠ []) (w : Nat) (st' : WBState)
    (hf : fetchWord xem idx st = (.ok w, st')) :
    st'.cmd_queue = [] ∧ st'.cmd_buffer = [] ∧ st'.cmd_queue_output_size = 0 := by
  unfold fetchWord at hf
  split at hf
  · simp at hf
  · rename_i herr
    have hcl := flush_err_none_clears xem st hne herr
    simp only [Prod.mk.injEq] at hf
    rw [← hf.2]
    exact ⟨hcl.1, hcl.2.1, hcl.2.2.1⟩

/-- A successful `fetch` of `burst_read` flushed the queue. -/
theorem fetchWords_ok_clears (xem : Xem) (idx : Nat) (st : WBState)
    (hne : st.cmd_queue ≠ []) (l : List Nat) (st' : WBState)
    (hf : fetchWords xem idx st = (.ok l, st')) :
    st'.cmd_queue = [] ∧ st'.cmd_buffer = [] ∧ st'.cmd_queue_output_size = 0 := by
  unfold fetchWords at hf
  split at hf
  · simp at hf
  · rename_i herr
    have hcl := flush_err_none_clears xem st hne herr
    simp only [Prod.mk.injEq] at hf
    rw [← hf.2]
    exact ⟨hcl.1, hcl.2.1, hcl.2.2.1⟩

/-- An eager `read` that returns normally returns a plain value, never an
accessor, and leaves the queue drained. -/
theorem read_eager_ok (xem : Xem) (addr : Nat) (it : Bool) (s : WBState)
    (r : OpRet Nat) (s' : WBState) (h : read xem addr it false s = (.ok r, s')) :
    (∃ w, r = .value w) ∧ s'.cmd_queue = [] ∧ s'.cmd_buffer = [] ∧
      s'.cmd_queue_output_size = 0 := by
  rcases he : _encode s.seq 0 1 (boolInt it) 0 addr 0xdeadbeef (.scalar 0) with ⟨er, seq'⟩
  unfold read at h
  rw [he] at h
  cases er with
  | error e => simp at h
  | ok hc =>
    rcases hc with ⟨header, cmd⟩
    dsimp only [] at h
    rcases hq : queue xem cmd 16 (readHandle header addr) { s with seq := seq' } with ⟨qe, s2⟩
    rw [hq] at h
    cases qe with
    | some e => simp at h
    | none =>
      dsimp only [] at h
      rw [if_neg (by simp : ¬(false = true))] at h
      rcases hp : fetchWord xem (s2.cmd_queue.length - 1) s2 with ⟨pr, ps⟩
      rw [hp] at h
      simp only [Prod.mk.injEq] at h
      cases pr with
      | error e => simp [Except.map] at h
      | ok w =>
        simp only [Except.map, Except.ok.injEq] at h
        have hne := queue_none_ne_nil _ _ _ _ _ _ hq
        have hcl := fetchWord_ok_clears xem _ s2 hne w ps hp
        rw [← h.1, ← h.2]
        exact ⟨⟨w, rfl⟩, hcl.1, hcl.2.1, hcl.2.2⟩

/-- `flush_queue` never removes transport-log entries. -/
theorem flush_log_mono (xem : Xem) (s : WBState) :
    s.log.length ≤ (flush_queue xem s).state.log.length := by
  unfold flush_queue
  split
  · exact le_refl _
  · split
    · exact le_refl _
    · simp

/-- A completed enqueue never removes transport-log entries. -/
theorem queue_none_log_mono (xem : Xem) (cmd : List Nat) (rs : Nat) (h : Handler)
    (s s' : WBState) (hq : queue xem cmd rs h s = (none, s')) :
    s.log.length ≤ s'.log.length := by
  unfold queue at hq
  split at hq
  · split at hq
    · simp at hq
    · simp only [Prod.mk.injEq] at hq
      rw [← hq.2]
      simpa [enqueueState] using flush_log_mono xem s
  · simp only [Prod.mk.injEq] at hq
    rw [← hq.2]
    simp [enqueueState]

/-- An eager `modify` that returns normally returns a plain value and
leaves the queue drained. -/
theorem modify_eager_ok (xem : Xem) (addr d mask : Nat) (it : Bool) (s : WBState)
    (r : OpRet Nat) (s' : WBState) (h : modify xem addr d mask it false s = (.ok r, s')) :
    (∃ w, r = .value w) ∧ s'.cmd_queue = [] ∧ s'.cmd_buffer = [] ∧
      s'.cmd_queue_output_size = 0 := by
  rcases he : _encode s.seq 2 1 (boolInt it) 0 addr mask (.scalar d) with ⟨er, seq'⟩
  unfold modify at h
  rw [he] at h
  cases er with
  | error e => simp at h
  | ok hc =>
    rcases hc with ⟨header, cmd⟩
    dsimp only [] at h
    rcases hq : queue xem cmd 16 (modifyHandle header addr) { s with seq := seq' } with ⟨qe, s2⟩
    rw [hq] at h
    cases qe with
    | some e => simp at h
    | none =>
      dsimp only [] at h
      rw [if_neg (by simp : ¬(false = true))] at h
      rcases hp : fetchWord xem (s2.cmd_queue.length - 1) s2 with ⟨pr, ps⟩
      rw [hp] at h
      simp only [Prod.mk.injEq] at h
      cases pr with
      | error e => simp [Except.map] at h
      | ok w =>
        simp only [Except.map, Except.ok.injEq] at h
        have hne := queue_none_ne_nil _ _ _ _ _ _ hq
        have hcl := fetchWord_ok_clears xem _ s2 hne w ps hp
        rw [← h.1, ← h.2]
        exact ⟨⟨w, rfl⟩, hcl.1, hcl.2.1, hcl.2.2⟩

/-- An eager `burst_read` of size at least 2 that returns normally leaves
the queue drained. -/
theorem burst_read_eager_ok (xem : Xem) (addr size ai : Nat) (it : Bool) (s : WBState)
    (r : OpRet (List Nat)) (s' : WBState) (h2 : 2 ≤ size)
    (h : burst_read xem addr size ai it false s = (.ok r, s')) :
    s'.cmd_queue = [] ∧ s'.cmd_buffer = [] ∧ s'.cmd_queue_output_size = 0 := by
  rcases he : _encode s.seq 0 (size : Int) (boolInt it) (ai : Int) addr 0xdeadbeef
      (.scalar 0) with ⟨er, seq'⟩
  unfold burst_read at h
  rw [if_neg (by omega), if_neg (by omega), he] at h
  cases er with
  | error e => simp at h
  | ok hc =>
    rcases hc with ⟨header, cmd⟩
    dsimp only [] at h
    rcases hq : queue xem cmd (pyAlign4 (size + 3) * 4)
        (burstReadHandle header addr size ai (pyAlign4 (size + 3)))
        { s with seq := seq' } with ⟨qe, s2⟩
    rw [hq] at h
    cases qe with
    | some e => simp at h
    | none =>
      dsimp only [] at h
      rw [if_neg (by simp : ¬(false = true))] at h
      rcases hp : fetchWords xem (s2.cmd_queue.length - 1) s2 with ⟨pr, ps⟩
      rw [hp] at h
      simp only [Prod.mk.injEq] at h
      cases pr with
      | error e => simp [Except.map] at h
      | ok l =>
        have hne := queue_none_ne_nil _ _ _ _ _ _ hq
        have hcl := fetchWords_ok_clears xem _ s2 hne l ps hp
        rw [← h.2]
        exact hcl

/-! ## C8: the capacity assertion in flush_queue -/

theorem sBigBuf_buffer_len : sBigBuf.cmd_buffer.length = 6996 := by
  rw [show sBigBuf.cmd_buffer = List.replicate 6996 0 from rfl, List.length_replicate]

theorem sBothBig_buffer_len : sBothBig.cmd_buffer.length = 7000 := by
  rw [show sBothBig.cmd_buffer = List.replicate 7000 0 from rfl, List.length_replicate]

/-- C8 counterexample: with an output buffer of 6996 bytes (beyond
`MAX_FIFO_SIZE = 6992`) but a small expected response total, the claim
says the flush assertion must fail; the code asserts only
`min(len(cmd_buffer), cmd_queue_output_size) <= MAX_FIFO_SIZE`, so the
flush proceeds: no error is raised and the transport round trip is
performed. -/
theorem C8_flush_assert_counterexample :
    MAX_FIFO_SIZE < sBigBuf.cmd_buffer.length ∧
    (flush_queue xemZ sBigBuf).err = none ∧
    (flush_queue xemZ sBigBuf).state.log.length = 1 := by
  have hq0 : ¬ sBigBuf.cmd_queue.length = 0 := by
    rw [show sBigBuf.cmd_queue = [(16, hOk)] from rfl]
    simp
  have hmin : ¬ MAX_FIFO_SIZE < min sBigBuf.cmd_buffer.length sBigBuf.cmd_queue_output_size := by
    rw [sBigBuf_buffer_len, show sBigBuf.cmd_queue_output_size = 16 from rfl]
    norm_num [MAX_FIFO_SIZE]
  refine ⟨?_, ?_, ?_⟩
  · rw [sBigBuf_buffer_len]
    norm_num [MAX_FIFO_SIZE]
  · unfold flush_queue
    rw [if_neg hq0, if_neg hmin]
    rw [show sBigBuf.cmd_queue = [(16, hOk)] from rfl]
    simp [demuxLoop, hOk, firstExc, errOf]
  · unfold flush_queue
    rw [if_neg hq0, if_neg hmin]
    rw [show sBigBuf.log = [] from rfl]
    simp

/-- C8 amended: on a non-empty queue, the flush assertion checks
`min(len(output buffer), expected total) <= MAX_FIFO_SIZE` — it fails
(raising before any transport activity, leaving the state untouched)
exactly when both sizes exceed `MAX_FIFO_SIZE`; when at least one size is
within bound the flush performs the round trip and the demultiplexing. -/
theorem C8_flush_assert (xem : Xem) (s : WBState) (hne : s.cmd_queue ≠ []) :
    (MAX_FIFO_SIZE < min s.cmd_buffer.length s.cmd_queue_output_size →
        flush_queue xem s = ⟨s, [], some (.assertionError "fifo capacity")⟩) ∧
    (min s.cmd_buffer.length s.cmd_queue_output_size ≤ MAX_FIFO_SIZE →
        (flush_queue xem s).state.log = s.log ++ [s.cmd_buffer] ∧
        (flush_queue xem s).results =
          demuxLoop (fixLen s.cmd_queue_output_size (xem s.cmd_buffer s.cmd_queue_output_size))
            0 s.cmd_queue) := by
  have h0 : ¬ s.cmd_queue.length = 0 := by
    simpa [List.length_eq_zero] using hne
  constructor
  · intro hcap
    unfold flush_queue
    rw [if_neg h0, if_pos hcap]
  · intro hcap
    unfold flush_queue
    rw [if_neg h0, if_neg (not_lt.mpr hcap)]
    exact ⟨rfl, rfl⟩

/-- C8 witness: `C8_flush_assert` applied to the two concrete states:
one where both sizes exceed the bound (the assertion fires) and one where
only the buffer exceeds it (the round trip happens). -/
theorem C8_flush_assert_witness :
    flush_queue xemZ sBothBig = ⟨sBothBig, [], some (.assertionError "fifo capacity")⟩ ∧
    ((flush_queue xemZ sBigBuf).state.log = sBigBuf.log ++ [sBigBuf.cmd_buffer] ∧
      (flush_queue xemZ sBigBuf).results =
        demuxLoop (fixLen sBigBuf.cmd_queue_output_size
          (xemZ sBigBuf.cmd_buffer sBigBuf.cmd_queue_output_size)) 0 sBigBuf.cmd_queue) :=
  ⟨(C8_flush_assert xemZ sBothBig
      (by rw [show sBothBig.cmd_queue = [(7000, hOk)] from rfl]; simp)).1
      (by rw [sBothBig_buffer_len, show sBothBig.cmd_queue_output_size = 7000 from rfl]
          norm_num [MAX_FIFO_SIZE]),
   (C8_flush_assert xemZ sBigBuf
      (by rw [show sBigBuf.cmd_queue = [(16, hOk)] from rfl]; simp)).2
      (by rw [sBigBuf_buffer_len, show sBigBuf.cmd_queue_output_size = 16 from rfl]
          norm_num [MAX_FIFO_SIZE])⟩

/-! ## C1: the enqueue capacity policy -/

theorem cmdBig_len : cmdBig.length = 4016 := by
  rw [show cmdBig = List.replicate 4016 0 from rfl, List.length_replicate]

theorem enqueueState_buffer_len (cmd : List Nat) (rs : Nat) (h : Handler) (s : WBState) :
    (enqueueState cmd rs h s).cmd_buffer.length = s.cmd_buffer.length + cmd.length := by
  simp [enqueueState]

/-- C1 counterexample: two enqueues of a 4016-byte command (each well
within `MAX_FIFO_SIZE`, expected response 16 bytes) complete without any
flush — the code flushes only when *both* aggregated sizes would exceed
the bound — leaving 8032 bytes in the output buffer, beyond
`MAX_FIFO_SIZE = 6992`, which contradicts both the claimed flush
condition and the claimed post-enqueue invariant. -/
theorem C1_capacity_counterexample :
    cmdBig.length ≤ MAX_FIFO_SIZE ∧ (16 : Nat) ≤ MAX_FIFO_SIZE ∧
    (queue xemZ cmdBig 16 hOk initialState).1 = none ∧
    (queue xemZ cmdBig 16 hOk (queue xemZ cmdBig 16 hOk initialState).2).1 = none ∧
    MAX_FIFO_SIZE <
      (queue xemZ cmdBig 16 hOk
        (queue xemZ cmdBig 16 hOk initialState).2).2.cmd_buffer.length ∧
    (queue xemZ cmdBig 16 hOk (queue xemZ cmdBig 16 hOk initialState).2).2.log = [] := by
  have h1 : queue xemZ cmdBig 16 hOk initialState =
      (none, enqueueState cmdBig 16 hOk initialState) := by
    unfold queue
    rw [if_neg (by
      rw [show initialState.cmd_buffer.length = 0 from rfl,
        show initialState.cmd_queue_output_size = 0 from rfl, cmdBig_len]
      norm_num [MAX_FIFO_SIZE])]
  have h2 : queue xemZ cmdBig 16 hOk (enqueueState cmdBig 16 hOk initialState) =
      (none, enqueueState cmdBig 16 hOk (enqueueState cmdBig 16 hOk initialState)) := by
    unfold queue
    rw [if_neg (by
      rw [enqueueState_buffer_len, show initialState.cmd_buffer.length = 0 from rfl,
        show (enqueueState cmdBig 16 hOk initialState).cmd_queue_output_size = 0 + 16 from rfl,
        cmdBig_len]
      norm_num [MAX_FIFO_SIZE])]
  refine ⟨by rw [cmdBig_len]; norm_num [MAX_FIFO_SIZE], by norm_num [MAX_FIFO_SIZE],
    ?_, ?_, ?_, ?_⟩
  · rw [h1]
  · rw [h1, h2]
  · rw [h1, h2]
    rw [enqueueState_buffer_len, enqueueState_buffer_len,
      show initialState.cmd_buffer.length = 0 from rfl, cmdBig_len]
    norm_num [MAX_FIFO_SIZE]
  · rw [h1, h2]
    rfl

/-- C1 amended: the queue flushes before appending exactly when *both*
the output-buffer length plus the new command length and the expected
total plus the new expected length exceed `MAX_FIFO_SIZE` (appending
directly otherwise); consequently, for commands whose own sizes are
within bound, after every completed enqueue
`min(len(output buffer), expected total response length) <= MAX_FIFO_SIZE`
holds — at least one of the two sides stays within the bound, but not
necessarily both. -/
theorem C1_capacity (xem : Xem) (cmd : List Nat) (rs : Nat) (h : Handler) (s : WBState)
    (hc : cmd.length ≤ MAX_FIFO_SIZE) (hr : rs ≤ MAX_FIFO_SIZE)
    (hinit : s.cmd_queue = [] → s.cmd_buffer = [] ∧ s.cmd_queue_output_size = 0) :
    (MAX_FIFO_SIZE < min (s.cmd_buffer.length + cmd.length) (s.cmd_queue_output_size + rs) →
        queue xem cmd rs h s =
          (match (flush_queue xem s).err with
           | some e => (some e, (flush_queue xem s).state)
           | none => (none, enqueueState cmd rs h (flush_queue xem s).state))) ∧
    (min (s.cmd_buffer.length + cmd.length) (s.cmd_queue_output_size + rs) ≤ MAX_FIFO_SIZE →
        queue xem cmd rs h s = (none, enqueueState cmd rs h s)) ∧
    (∀ s', queue xem cmd rs h s = (none, s') →
        min s'.cmd_buffer.length s'.cmd_queue_output_size ≤ MAX_FIFO_SIZE) := by
  refine ⟨?_, ?_, ?_⟩
  · intro hboth
    unfold queue
    rw [if_pos hboth]
  · intro hle
    unfold queue
    rw [if_neg (not_lt.mpr hle)]
  · intro s' hq
    unfold queue at hq
    by_cases hcond :
        MAX_FIFO_SIZE < min (s.cmd_buffer.length + cmd.length) (s.cmd_queue_output_size + rs)
    · rw [if_pos hcond] at hq
      rcases herr : (flush_queue xem s).err with _ | e
      · rw [herr] at hq
        simp only [Prod.mk.injEq] at hq
        by_cases hemp : s.cmd_queue = []
        · have hf : flush_queue xem s = ⟨s, [], none⟩ := by
            unfold flush_queue
            rw [if_pos (by simp [hemp])]
          rw [← hq.2, hf]
          rcases hinit hemp with ⟨hb, hs⟩
          simp only [enqueueState, hb, hs, List.nil_append, List.length_nil]
          omega
        · have hcl := flush_err_none_clears xem s hemp herr
          rw [← hq.2]
          simp only [enqueueState, hcl.1, hcl.2.1, hcl.2.2.1, List.nil_append,
            List.length_nil]
          omega
      · rw [herr] at hq
        simp at hq
    · rw [if_neg hcond] at hq
      simp only [Prod.mk.injEq] at hq
      rw [← hq.2]
      simp only [enqueueState, List.length_append]
      omega

/-- C1 witness: `C1_capacity` applied to one small enqueue from the
initial state: no flush is triggered and the post-enqueue minimum stays
within `MAX_FIFO_SIZE`. -/
theorem C1_capacity_witness :
    queue xemZ [0, 0, 0, 0] 16 hOk initialState =
        (none, enqueueState [0, 0, 0, 0] 16 hOk initialState) ∧
    min (enqueueState [0, 0, 0, 0] 16 hOk initialState).cmd_buffer.length
        (enqueueState [0, 0, 0, 0] 16 hOk initialState).cmd_queue_output_size ≤
      MAX_FIFO_SIZE :=
  have hth := C1_capacity xemZ [0, 0, 0, 0] 16 hOk initialState (by decide) (by decide)
    (fun _ => ⟨rfl, rfl⟩)
  have h2 := hth.2.1 (by decide)
  ⟨h2, hth.2.2 _ h2⟩

/-! ## C3: the command encoder -/

/-- `_encode` on in-range arguments and scalar data (the read, write and
modify paths, and burst read): the exact header and the exact four-word
little-endian frame. -/
theorem _encode_scalar_eq (seq : Nat) (cmd size bp ai : Int) (addr mask d : Nat)
    (h1 : 0 ≤ cmd ∧ cmd < 4) (h2 : 0 ≤ size ∧ size < 8192)
    (h3 : 0 ≤ bp ∧ bp < 2) (h4 : 0 ≤ ai ∧ ai < 256)
    (hbr : cmd.toNat = 0 ∨ size.toNat = 1)
    (haddr : addr < 4294967296) (hmask : mask < 4294967296) (hd : d < 4294967296) :
    _encode seq cmd size bp ai addr mask (.scalar d) =
      (.ok (cmd.toNat ||| (size.toNat <<< 2) ||| ((seq &&& 255) <<< 15) |||
              (bp.toNat <<< 23) ||| (ai.toNat <<< 24),
            [cmd.toNat ||| (size.toNat <<< 2) ||| ((seq &&& 255) <<< 15) |||
                (bp.toNat <<< 23) ||| (ai.toNat <<< 24), addr, mask, d].flatMap wordToBytesLE),
       seq + 1) := by
  have hh : cmd.toNat ||| (size.toNat <<< 2) ||| ((seq &&& 255) <<< 15) |||
      (bp.toNat <<< 23) ||| (ai.toNat <<< 24) < 4294967296 := by
    have := header_lt_two_pow_32 cmd.toNat size.toNat seq bp.toNat ai.toNat
      (by omega) (by omega) (by omega) (by omega)
    norm_num at this
    exact this
  unfold _encode
  rw [if_neg (not_not_intro h1), if_neg (not_not_intro h2), if_neg (not_not_intro h3),
    if_neg (not_not_intro h4)]
  dsimp only []
  rw [if_pos hbr]
  unfold packWords
  rw [if_pos ⟨rfl, by
    simp only [List.cons_append, List.nil_append, List.all_cons, List.all_nil,
      Bool.and_true, Bool.and_eq_true, decide_eq_true_eq]
    exact ⟨hh, haddr, hmask, hd⟩⟩]
  rfl

/-- C3: for in-range arguments `_encode` produces the header
`opcode | (size << 2) | ((seq mod 256) << 15) | (atomic_group << 23) | (addr_incr << 24)`
and advances the sequence counter by exactly one; an out-of-range (or
negative) argument fails fast with an assertion error and leaves the
counter untouched; encoding a single write of `0xCAFEBABE` to `0x1000`
yields header `1 | (1 << 2) | ((seq mod 256) << 15)` and the little-endian
frame `[header, 0x1000, 0xDEADBEEF, 0xCAFEBABE]`. -/
theorem C3_encode_contract (seq : Nat) (cmd size bp ai : Int) (addr mask : Nat)
    (data : EncData) :
    ((0 ≤ cmd ∧ cmd < 4) → (0 ≤ size ∧ size < 8192) → (0 ≤ bp ∧ bp < 2) →
        (0 ≤ ai ∧ ai < 256) →
       (_encode seq cmd size bp ai addr mask data).2 = seq + 1 ∧
       (∀ hdr bytes, (_encode seq cmd size bp ai addr mask data).1 = .ok (hdr, bytes) →
          hdr = cmd.toNat ||| (size.toNat <<< 2) ||| ((seq % 256) <<< 15) |||
            (bp.toNat <<< 23) ||| (ai.toNat <<< 24))) ∧
    ((¬ (0 ≤ cmd ∧ cmd < 4)) ∨ (¬ (0 ≤ size ∧ size < 8192)) ∨ (¬ (0 ≤ bp ∧ bp < 2)) ∨
        (¬ (0 ≤ ai ∧ ai < 256)) →
       (∃ m, (_encode seq cmd size bp ai addr mask data).1 = .error (.assertionError m)) ∧
       (_encode seq cmd size bp ai addr mask data).2 = seq) ∧
    (_encode seq 1 1 0 0 0x1000 0xdeadbeef (.scalar 0xCAFEBABE) =
       (.ok (1 ||| (1 <<< 2) ||| ((seq % 256) <<< 15),
          [1 ||| (1 <<< 2) ||| ((seq % 256) <<< 15), 0x1000, 0xdeadbeef,
            0xCAFEBABE].flatMap wordToBytesLE), seq + 1)) := by
  have hmod : seq &&& 255 = seq % 256 := by
    simpa using Nat.and_pow_two_sub_one_eq_mod seq 8
  refine ⟨?_, ?_, ?_⟩
  · intro h1 h2 h3 h4
    unfold _encode
    rw [if_neg (not_not_intro h1), if_neg (not_not_intro h2), if_neg (not_not_intro h3),
      if_neg (not_not_intro h4)]
    dsimp only []
    constructor
    · split <;> rfl
    · intro hdr bytes hok
      split at hok
      · rename_i bs hbs
        simp only [Except.ok.injEq, Prod.mk.injEq] at hok
        rw [← hok.1, hmod]
      · simp at hok
  · intro hbad
    unfold _encode
    by_cases h1 : 0 ≤ cmd ∧ cmd < 4
    · rw [if_neg (not_not_intro h1)]
      by_cases h2 : 0 ≤ size ∧ size < 8192
      · rw [if_neg (not_not_intro h2)]
        by_cases h3 : 0 ≤ bp ∧ bp < 2
        · rw [if_neg (not_not_intro h3)]
          by_cases h4 : 0 ≤ ai ∧ ai < 256
          · rcases hbad with h | h | h | h
            exacts [absurd h1 h, absurd h2 h, absurd h3 h, absurd h4 h]
          · rw [if_pos h4]
            exact ⟨⟨_, rfl⟩, rfl⟩
        · rw [if_pos h3]
          exact ⟨⟨_, rfl⟩, rfl⟩
      · rw [if_pos h2]
        exact ⟨⟨_, rfl⟩, rfl⟩
    · rw [if_pos h1]
      exact ⟨⟨_, rfl⟩, rfl⟩
  · have he := _encode_scalar_eq seq 1 1 0 0 0x1000 0xdeadbeef 0xCAFEBABE
      (by norm_num) (by norm_num) (by norm_num) (by norm_num) (Or.inr (by norm_num))
      (by norm_num) (by norm_num) (by norm_num)
    rw [he, hmod]
    norm_num

/-- C3 witness: `C3_encode_contract` at the scenario input (`seq = 0`:
header `5`) and at a negative opcode (counter untouched). -/
theorem C3_encode_contract_witness :
    (_encode 0 1 1 0 0 0x1000 0xdeadbeef (.scalar 0xCAFEBABE)).2 = 0 + 1 ∧
    (5 : Nat) = (1 : Int).toNat ||| ((1 : Int).toNat <<< 2) ||| ((0 % 256) <<< 15) |||
      ((0 : Int).toNat <<< 23) ||| ((0 : Int).toNat <<< 24) ∧
    (_encode 0 (-1) 1 0 0 0 0 (.scalar 0)).2 = 0 :=
  have hth := C3_encode_contract 0 1 1 0 0 0x1000 0xdeadbeef (.scalar 0xCAFEBABE)
  have h1 := hth.1 (by norm_num) (by norm_num) (by norm_num) (by norm_num)
  have hth2 := C3_encode_contract 0 (-1) 1 0 0 0 0 (.scalar 0)
  ⟨h1.1, h1.2 5 ([5, 0x1000, 0xdeadbeef, 0xCAFEBABE].flatMap wordToBytesLE) (by rfl),
   (hth2.2.1 (Or.inl (by norm_num))).2⟩

/-! ## C2: flush runs every handler, clears, re-raises the first error -/

/-- C2: flushing a non-empty queue (whose state passes the capacity
assertion) hands every queued handler, in enqueue order, exactly its
slice of the response buffer — one outcome per request — then clears the
output buffer, the request list and the expected-size counter no matter
which handlers raised, and propagates exactly the first error in queue
order (`none` when no handler raised). -/
theorem C2_flush_behavior (xem : Xem) (s : WBState) (hne : s.cmd_queue ≠ [])
    (hcap : min s.cmd_buffer.length s.cmd_queue_output_size ≤ MAX_FIFO_SIZE) :
    (flush_queue xem s).results.length = s.cmd_queue.length ∧
    (∀ i, i < s.cmd_queue.length →
       (flush_queue xem s).results.getD i (.ok .unit) =
         (s.cmd_queue.getD i dfltEntry).2
           (((fixLen s.cmd_queue_output_size (xem s.cmd_buffer s.cmd_queue_output_size)).drop
               (prefixSize s.cmd_queue i)).take (s.cmd_queue.getD i dfltEntry).1)) ∧
    (flush_queue xem s).state.cmd_queue = [] ∧
    (flush_queue xem s).state.cmd_buffer = [] ∧
    (flush_queue xem s).state.cmd_queue_output_size = 0 ∧
    (flush_queue xem s).err = firstErrSpec (flush_queue xem s).results := by
  have h0 : ¬ s.cmd_queue.length = 0 := by
    simpa [List.length_eq_zero] using hne
  unfold flush_queue
  rw [if_neg h0, if_neg (not_lt.mpr hcap)]
  refine ⟨demuxLoop_length _ _ _, ?_, rfl, rfl, rfl, firstExc_eq_spec _⟩
  intro i hi
  have := demuxLoop_getD
    (fixLen s.cmd_queue_output_size (xem s.cmd_buffer s.cmd_queue_output_size))
    s.cmd_queue 0 i hi
  simpa using this

/-- C2 witness: `C2_flush_behavior` on a concrete two-request queue whose
first handler raises: both handlers are still invoked on their slices,
the state is cleared, and the first error is re-raised. -/
theorem C2_flush_behavior_witness :
    (flush_queue xemZ sTwo).results.length = sTwo.cmd_queue.length ∧
    ((flush_queue xemZ sTwo).results.getD 0 (.ok .unit) =
       (sTwo.cmd_queue.getD 0 dfltEntry).2
         (((fixLen sTwo.cmd_queue_output_size
             (xemZ sTwo.cmd_buffer sTwo.cmd_queue_output_size)).drop
           (prefixSize sTwo.cmd_queue 0)).take (sTwo.cmd_queue.getD 0 dfltEntry).1)) ∧
    ((flush_queue xemZ sTwo).results.getD 1 (.ok .unit) =
       (sTwo.cmd_queue.getD 1 dfltEntry).2
         (((fixLen sTwo.cmd_queue_output_size
             (xemZ sTwo.cmd_buffer sTwo.cmd_queue_output_size)).drop
           (prefixSize sTwo.cmd_queue 1)).take (sTwo.cmd_queue.getD 1 dfltEntry).1)) ∧
    (flush_queue xemZ sTwo).state.cmd_queue = [] ∧
    (flush_queue xemZ sTwo).state.cmd_buffer = [] ∧
    (flush_queue xemZ sTwo).state.cmd_queue_output_size = 0 ∧
    (flush_queue xemZ sTwo).err = firstErrSpec (flush_queue xemZ sTwo).results :=
  have hth := C2_flush_behavior xemZ sTwo
    (by rw [show sTwo.cmd_queue = [(1, hBoom), (1, hOk)] from rfl]; simp)
    (by rw [show sTwo.cmd_buffer.length = 1 from rfl,
          show sTwo.cmd_queue_output_size = 2 from rfl]
        norm_num [MAX_FIFO_SIZE])
  ⟨hth.1, hth.2.1 0 (by rw [show sTwo.cmd_queue = [(1, hBoom), (1, hOk)] from rfl]; simp),
   hth.2.1 1 (by rw [show sTwo.cmd_queue = [(1, hBoom), (1, hOk)] from rfl]; simp),
   hth.2.2.1, hth.2.2.2.1, hth.2.2.2.2.1, hth.2.2.2.2.2⟩

/-! ## C4: response demultiplexing offsets -/

/-- C4: the demultiplexing loop passes handler `i` the contiguous slice
that starts at the sum of the expected sizes queued before it and spans
exactly its own expected size — non-overlapping, consuming the response
in enqueue order; in particular, flushing three queued requests with
expected sizes `[16, 32, 16]` over a 64-byte response buffer invokes
their handlers, in order, on `res[0:16]`, `res[16:48]` and `res[48:64]`. -/
theorem C4_demux_slices :
    (∀ (res : List Nat) (q : List (Nat × Handler)) (i : Nat), i < q.length →
       (demuxLoop res 0 q).getD i (.ok .unit) =
         (q.getD i dfltEntry).2
           ((res.drop (prefixSize q i)).take (q.getD i dfltEntry).1)) ∧
    (∀ (h1 h2 h3 : Handler) (res : List Nat), res.length = 64 →
       ∀ (sq : Nat) (buf : List Nat) (lg : List (List Nat)),
         (flush_queue (fun _ _ => res)
             ⟨sq, [(16, h1), (32, h2), (16, h3)], buf, 64, lg⟩).results =
           [h1 (res.take 16), h2 ((res.drop 16).take 32), h3 ((res.drop 48).take 16)]) := by
  constructor
  · intro res q i hi
    simpa using demuxLoop_getD res q 0 i hi
  · intro h1 h2 h3 res hlen sq buf lg
    unfold flush_queue
    rw [if_neg (by simp), if_neg (not_lt.mpr
      (le_trans (min_le_right _ _) (by norm_num [MAX_FIFO_SIZE])))]
    have hfix : fixLen 64 res = res := by
      unfold fixLen
      rw [hlen]
      simp [← hlen]
    simp only [hfix, demuxLoop]
    norm_num

/-- C4 witness: `C4_demux_slices` applied to a concrete 64-byte response
and the `[16, 32, 16]` queue. -/
theorem C4_demux_slices_witness :
    ((demuxLoop (List.replicate 64 7) 0 [(16, hOk), (32, hOk), (16, hOk)]).getD 0 (.ok .unit) =
      ([(16, hOk), (32, hOk), (16, hOk)].getD 0 dfltEntry).2
        (((List.replicate 64 7).drop (prefixSize [(16, hOk), (32, hOk), (16, hOk)] 0)).take
          ([(16, hOk), (32, hOk), (16, hOk)].getD 0 dfltEntry).1)) ∧
    (flush_queue (fun _ _ => List.replicate 64 7)
        ⟨0, [(16, hOk), (32, hOk), (16, hOk)], [], 64, []⟩).results =
      [hOk ((List.replicate 64 7).take 16), hOk (((List.replicate 64 7).drop 16).take 32),
        hOk (((List.replicate 64 7).drop 48).take 16)] :=
  ⟨C4_demux_slices.1 (List.replicate 64 7) [(16, hOk), (32, hOk), (16, hOk)] 0 (by simp),
   C4_demux_slices.2 hOk hOk hOk (List.replicate 64 7) (by simp) 0 [] []⟩

/-! ## C5: burst response framing and handler verification -/

theorem bytesToWords_length : ∀ (l : List Nat), (bytesToWords l).length = l.length / 4
  | _ :: _ :: _ :: _ :: rest => by
      simp only [bytesToWords, List.length_cons, bytesToWords_length rest]
      omega
  | [] => by simp [bytesToWords]
  | [_] => by simp [bytesToWords]
  | [_, _] => by simp [bytesToWords]
  | [_, _, _] => by simp [bytesToWords]

/-- `_encode` on the burst-write path (`cmd = 1`, list data of two or
more in-range words): the exact header and the exact frame — command
words, payload, then sentinel padding up to the four-word alignment. -/
theorem _encode_burst_write_eq (seq : Nat) (bp ai : Int) (addr mask : Nat) (l : List Nat)
    (hsz : 2 ≤ l.length) (hsz2 : l.length < 8192)
    (h3 : 0 ≤ bp ∧ bp < 2) (h4 : 0 ≤ ai ∧ ai < 256)
    (haddr : addr < 4294967296) (hmask : mask < 4294967296)
    (hl : ∀ w ∈ l, w < 4294967296) :
    _encode seq 1 (l.length : Int) bp ai addr mask (.list l) =
      (.ok (1 ||| (l.length <<< 2) ||| ((seq &&& 255) <<< 15) |||
              (bp.toNat <<< 23) ||| (ai.toNat <<< 24),
            ([1 ||| (l.length <<< 2) ||| ((seq &&& 255) <<< 15) |||
                (bp.toNat <<< 23) ||| (ai.toNat <<< 24), addr, mask] ++ l ++
              List.replicate (pyAlign4 (l.length + 3) - l.length - 3) mask).flatMap
              wordToBytesLE),
       seq + 1) := by
  have hc1 : (1 : Int).toNat = 1 := rfl
  have hszn : ((l.length : Nat) : Int).toNat = l.length := Int.toNat_natCast _
  have hh : 1 ||| (l.length <<< 2) ||| ((seq &&& 255) <<< 15) |||
      (bp.toNat <<< 23) ||| (ai.toNat <<< 24) < 4294967296 := by
    have := header_lt_two_pow_32 1 l.length seq bp.toNat ai.toNat
      (by omega) (by omega) (by omega) (by omega)
    norm_num at this
    exact this
  unfold _encode
  rw [if_neg (by norm_num), if_neg (not_not_intro ⟨by omega, by exact_mod_cast hsz2⟩),
    if_neg (not_not_intro h3), if_neg (not_not_intro h4)]
  dsimp only []
  rw [if_neg (by rw [hc1, hszn]; omega), if_pos (by rw [hszn]),
    if_pos ⟨hc1, by rw [hszn]; omega⟩]
  simp only [hc1, hszn, List.take_length]
  unfold packWords
  have hA : ([1 ||| (l.length <<< 2) ||| ((seq &&& 255) <<< 15) ||| (bp.toNat <<< 23) ||| (ai.toNat <<< 24), addr, mask] ++ l ++
      List.replicate (pyAlign4 (l.length + 3) - l.length - 3) mask).length = pyAlign4 (l.length + 3) := by
    have hge := pyAlign4_ge (l.length + 3)
    simp only [List.length_append, List.length_cons, List.length_nil,
      List.length_replicate]
    omega
  have hB : (([1 ||| (l.length <<< 2) ||| ((seq &&& 255) <<< 15) ||| (bp.toNat <<< 23) ||| (ai.toNat <<< 24), addr, mask] ++ l ++
      List.replicate (pyAlign4 (l.length + 3) - l.length - 3) mask).all fun w => decide (w < 4294967296)) = true := by
    simp only [List.append_assoc, List.all_append, List.all_cons, List.all_nil,
      Bool.and_true, Bool.and_eq_true, decide_eq_true_eq, List.all_eq_true]
    exact ⟨⟨hh, haddr, hmask⟩, hl, fun x hx => by
      rw [List.eq_of_mem_replicate hx]
      exact hmask⟩
  rw [if_pos ⟨hA, hB⟩]

/-- Enqueueing onto a fresh (empty-batch) state appends without a flush
as long as at least one of the two new sizes is within bound. -/
theorem queue_fresh (xem : Xem) (cmd : List Nat) (rs : Nat) (h : Handler)
    (sq : Nat) (lg : List (List Nat)) (hlen : min cmd.length rs ≤ MAX_FIFO_SIZE) :
    queue xem cmd rs h ⟨sq, [], [], 0, lg⟩ = (none, ⟨sq, [(rs, h)], cmd, rs, lg⟩) := by
  unfold queue
  rw [if_neg (not_lt.mpr (by simpa using hlen))]
  simp [enqueueState]

/-- C5 counterexample: for a burst write of size 5 the claim demands an
expected response of `ceil((5+3)/4)*4 = 8` words (32 bytes); the code
queues an expected response of 16 bytes (4 words). -/
theorem C5_frame_counterexample :
    (burst_write xemZ 0 [1, 2, 3, 4, 5] 1 false initialState).2.cmd_queue.map Prod.fst =
      [16] ∧
    pyAlign4 (5 + 3) * 4 = 32 ∧ (16 : Nat) ≠ 32 :=
  ⟨rfl, rfl, by decide⟩

/-- C5 amended: for every burst read of size > 1, the expected response
registered at enqueue time is `ceil((size+3)/4)*4` words (that many
times 4 bytes), and its handler decodes word 0 as the echoed header,
words `1..size` as payload, the second-to-last word as the echoed address
and the last word as the timeout; for every burst write of size > 1 the
expected response is 4 words, the echoed address at word 2 and the
timeout at word 3.  Either handler returns normally exactly when the
echoed header equals the header produced at encode time, the timeout
word is zero, and the echoed address equals
`address + (size - 1) * addr_incr`; otherwise it raises. -/
theorem C5_burst_frames :
    (∀ (xem : Xem) (addr size ai sq : Nat) (it : Bool) (lg : List (List Nat)),
       2 ≤ size → size < 8192 → ai < 256 → addr < 4294967296 →
       (burst_read xem addr size ai it true ⟨sq, [], [], 0, lg⟩).2.cmd_queue =
         [(pyAlign4 (size + 3) * 4,
           burstReadHandle
             (0 ||| (size <<< 2) ||| ((sq % 256) <<< 15) |||
               ((if it then 1 else 0) <<< 23) ||| (ai <<< 24))
             addr size ai (pyAlign4 (size + 3)))]) ∧
    (∀ (header addr size ai words : Nat) (res : List Nat),
       res.length = 4 * words → 2 ≤ words →
       ((∃ v, burstReadHandle header addr size ai words res = .ok v) ↔
          ((bytesToWords res).getD 0 0 = header ∧
           (bytesToWords res).getD (words - 1) 0 = 0 ∧
           (bytesToWords res).getD (words - 2) 0 = addr + (size - 1) * ai)) ∧
       (((bytesToWords res).getD 0 0 = header ∧
           (bytesToWords res).getD (words - 1) 0 = 0 ∧
           (bytesToWords res).getD (words - 2) 0 = addr + (size - 1) * ai) →
          burstReadHandle header addr size ai words res =
            .ok (.words (((bytesToWords res).drop 1).take size)))) ∧
    (∀ (xem : Xem) (addr ai sq : Nat) (it : Bool) (lg : List (List Nat)) (data : List Nat),
       2 ≤ data.length → data.length < 8192 → ai < 256 → addr < 4294967296 →
       (∀ w ∈ data, w < 4294967296) →
       (burst_write xem addr data ai it ⟨sq, [], [], 0, lg⟩).2.cmd_queue =
         [(16, burstWriteHandle
             (1 ||| (data.length <<< 2) ||| ((sq % 256) <<< 15) |||
               ((if it then 1 else 0) <<< 23) ||| (ai <<< 24))
             addr data.length ai)] ∧
       (burst_write xem addr data ai it ⟨sq, [], [], 0, lg⟩).1 = none) ∧
    (∀ (header addr size ai : Nat) (res : List Nat), res.length = 16 →
       ((∃ v, burstWriteHandle header addr size ai res = .ok v) ↔
          ((bytesToWords res).getD 0 0 = header ∧
           (bytesToWords res).getD 3 0 = 0 ∧
           (bytesToWords res).getD 2 0 = addr + (size - 1) * ai))) := by
  refine ⟨?_, ?_, ?_, ?_⟩
  · intro xem addr size ai sq it lg h2 h8 hai haddr
    have hmod : sq &&& 255 = sq % 256 := by
      simpa using Nat.and_pow_two_sub_one_eq_mod sq 8
    have hbb : 0 ≤ boolInt it ∧ boolInt it < 2 := by cases it <;> simp [boolInt]
    have he := _encode_scalar_eq sq 0 (size : Int) (boolInt it) (ai : Int) addr
      0xdeadbeef 0 (by norm_num) ⟨Int.natCast_nonneg _, by exact_mod_cast h8⟩ hbb
      ⟨Int.natCast_nonneg _, by exact_mod_cast hai⟩ (Or.inl rfl) haddr
      (by norm_num) (by norm_num)
    have hhdr : (0 : Int).toNat ||| (((size : Nat) : Int).toNat <<< 2) |||
        ((sq &&& 255) <<< 15) ||| ((boolInt it).toNat <<< 23) |||
        (((ai : Nat) : Int).toNat <<< 24) =
        0 ||| (size <<< 2) ||| ((sq % 256) <<< 15) |||
          ((if it then 1 else 0) <<< 23) ||| (ai <<< 24) := by
      rw [hmod, Int.toNat_natCast, Int.toNat_natCast]
      cases it <;> rfl
    unfold burst_read
    rw [if_neg (by omega), if_neg (by omega),
      show (⟨sq, [], [], 0, lg⟩ : WBState).seq = sq from rfl, he]
    dsimp only []
    rw [hhdr]
    rw [queue_fresh xem _ _ _ _ _ (le_trans (min_le_left _ _) (by
      rw [flatMap_wordToBytesLE_length]
      norm_num [MAX_FIFO_SIZE]))]
    rfl
  · intro header addr size ai words res hlen hw2
    have hwl : (bytesToWords res).length = words := by
      rw [bytesToWords_length, hlen]
      omega
    have hrun : ((bytesToWords res).getD 0 0 = header ∧
        (bytesToWords res).getD (words - 1) 0 = 0 ∧
        (bytesToWords res).getD (words - 2) 0 = addr + (size - 1) * ai) →
        burstReadHandle header addr size ai words res =
          .ok (.words (((bytesToWords res).drop 1).take size)) := by
      rintro ⟨hH, hT, hA⟩
      unfold burstReadHandle unpack
      rw [if_pos hlen]
      dsimp only []
      rw [hwl, if_neg (not_not_intro hH.symm), if_neg (not_not_intro hT),
        if_neg (not_not_intro hA.symm)]
    constructor
    · constructor
      · rintro ⟨v, hv⟩
        unfold burstReadHandle unpack at hv
        rw [if_pos hlen] at hv
        dsimp only [] at hv
        rw [hwl] at hv
        by_cases hH : header ≠ (bytesToWords res).getD 0 0
        · rw [if_pos hH] at hv
          simp at hv
        · rw [if_neg hH] at hv
          by_cases hT : (bytesToWords res).getD (words - 1) 0 ≠ 0
          · rw [if_pos hT] at hv
            simp at hv
          · rw [if_neg hT] at hv
            by_cases hA : addr + (size - 1) * ai ≠ (bytesToWords res).getD (words - 2) 0
            · rw [if_pos hA] at hv
              simp at hv
            · push_neg at hH hT hA
              exact ⟨hH.symm, hT, hA.symm⟩
      · intro hc
        exact ⟨_, hrun hc⟩
    · exact hrun
  · intro xem addr ai sq it lg data h2 h8 hai haddr hdata
    have hmod : sq &&& 255 = sq % 256 := by
      simpa using Nat.and_pow_two_sub_one_eq_mod sq 8
    have hbb : 0 ≤ boolInt it ∧ boolInt it < 2 := by cases it <;> simp [boolInt]
    have he := _encode_burst_write_eq sq (boolInt it) (ai : Int) addr 0xdeadbeef data
      h2 h8 hbb ⟨Int.natCast_nonneg _, by exact_mod_cast hai⟩ haddr
      (by norm_num) hdata
    have hhdr : 1 ||| (data.length <<< 2) ||| ((sq &&& 255) <<< 15) |||
        ((boolInt it).toNat <<< 23) ||| (((ai : Nat) : Int).toNat <<< 24) =
        1 ||| (data.length <<< 2) ||| ((sq % 256) <<< 15) |||
          ((if it then 1 else 0) <<< 23) ||| (ai <<< 24) := by
      rw [hmod, Int.toNat_natCast]
      cases it <;> rfl
    unfold burst_write
    rw [if_neg (by omega), if_neg (by omega),
      show (⟨sq, [], [], 0, lg⟩ : WBState).seq = sq from rfl]
    rw [show ((data.length : Nat) : Int) = ((data.length : Nat) : Int) from rfl, he]
    dsimp only []
    rw [hhdr]
    rw [queue_fresh xem _ _ _ _ _ (le_trans (min_le_right _ _) (by
      norm_num [MAX_FIFO_SIZE]))]
    exact ⟨rfl, rfl⟩
  · intro header addr size ai res hlen
    have hrun : ((bytesToWords res).getD 0 0 = header ∧
        (bytesToWords res).getD 3 0 = 0 ∧
        (bytesToWords res).getD 2 0 = addr + (size - 1) * ai) →
        burstWriteHandle header addr size ai res = .ok .unit := by
      rintro ⟨hH, hT, hA⟩
      unfold burstWriteHandle unpack
      rw [if_pos (by omega)]
      dsimp only []
      rw [if_neg (not_not_intro hH.symm), if_neg (not_not_intro hT),
        if_neg (not_not_intro hA.symm)]
    constructor
    · rintro ⟨v, hv⟩
      unfold burstWriteHandle unpack at hv
      rw [if_pos (by omega)] at hv
      dsimp only [] at hv
      by_cases hH : header ≠ (bytesToWords res).getD 0 0
      · rw [if_pos hH] at hv
        simp at hv
      · rw [if_neg hH] at hv
        by_cases hT : (bytesToWords res).getD 3 0 ≠ 0
        · rw [if_pos hT] at hv
          simp at hv
        · rw [if_neg hT] at hv
          by_cases hA : addr + (size - 1) * ai ≠ (bytesToWords res).getD 2 0
          · rw [if_pos hA] at hv
            simp at hv
          · push_neg at hH hT hA
            exact ⟨hH.symm, hT, hA.symm⟩
    · intro hc
      exact ⟨_, hrun hc⟩

/-- C5 witness: `C5_burst_frames` applied to a size-5 burst read and a
size-5 burst write from a fresh state, and to the two concrete
well-formed responses. -/
theorem C5_burst_frames_witness :
    (burst_read xemZ 0 5 1 false true ⟨0, [], [], 0, []⟩).2.cmd_queue =
      [(pyAlign4 (5 + 3) * 4,
        burstReadHandle
          (0 ||| (5 <<< 2) ||| ((0 % 256) <<< 15) ||| ((if false then 1 else 0) <<< 23) |||
            (1 <<< 24)) 0 5 1 (pyAlign4 (5 + 3)))] ∧
    burstReadHandle 9 0 5 1 8 resW = .ok (.words (((bytesToWords resW).drop 1).take 5)) ∧
    ((burst_write xemZ 0 [1, 2, 3, 4, 5] 1 false ⟨0, [], [], 0, []⟩).2.cmd_queue =
        [(16, burstWriteHandle
            (1 ||| (5 <<< 2) ||| ((0 % 256) <<< 15) ||| ((if false then 1 else 0) <<< 23) |||
              (1 <<< 24)) 0 5 1)] ∧
      (burst_write xemZ 0 [1, 2, 3, 4, 5] 1 false ⟨0, [], [], 0, []⟩).1 = none) ∧
    burstWriteHandle 7 0 5 1 resW4 ≠ .error .headerMismatch := by
  refine ⟨C5_burst_frames.1 xemZ 0 5 1 0 false [] (by decide) (by decide) (by decide)
      (by decide), ?_, ?_, ?_⟩
  · exact (C5_burst_frames.2.1 9 0 5 1 8 resW (by decide) (by decide)).2 (by decide)
  · exact C5_burst_frames.2.2.1 xemZ 0 1 0 false [] [1, 2, 3, 4, 5] (by decide)
      (by decide) (by decide) (by decide) (by decide)
  · obtain ⟨v, hv⟩ := (C5_burst_frames.2.2.2 7 0 5 1 resW4 (by decide)).mpr (by decide)
    rw [hv]
    simp

/-! ## C7: eager operations and flushing -/

/-- C7 counterexample: `burst_write` of the two-element list `[1, 2]`
completes without error but performs no flush: the request stays queued
and no transport round trip is logged — contradicting the claim that
`burst_write` always flushes before returning for non-empty data. -/
theorem C7_eager_flush_counterexample :
    (burst_write xemZ 0 [1, 2] 1 false initialState).1 = none ∧
    (burst_write xemZ 0 [1, 2] 1 false initialState).2.cmd_queue.length = 1 ∧
    (burst_write xemZ 0 [1, 2] 1 false initialState).2.log = [] := by
  exact ⟨rfl, rfl, rfl⟩

/-- C7 amended: `write` always flushes immediately (the queue is drained
and a round trip is logged); eager `read`, `modify` and `burst_read` of
size at least 1 flush before returning whenever they return normally;
`burst_write` of a one-element list is exactly a scalar `write` and hence
flushes; but `burst_write` of two or more elements only enqueues — its
request is still queued when it returns. -/
theorem C7_eager_flush :
    (∀ (xem : Xem) (addr d : Nat) (it : Bool) (s s' : WBState),
        write xem addr d it s = (none, s') →
          s'.cmd_queue = [] ∧ s'.cmd_buffer = [] ∧ s'.cmd_queue_output_size = 0 ∧
            s.log.length < s'.log.length) ∧
    (∀ (xem : Xem) (addr : Nat) (it : Bool) (s : WBState) (r : OpRet Nat) (s' : WBState),
        read xem addr it false s = (.ok r, s') →
          s'.cmd_queue = [] ∧ s'.cmd_buffer = []) ∧
    (∀ (xem : Xem) (addr d mask : Nat) (it : Bool) (s : WBState) (r : OpRet Nat)
        (s' : WBState),
        modify xem addr d mask it false s = (.ok r, s') →
          s'.cmd_queue = [] ∧ s'.cmd_buffer = []) ∧
    (∀ (xem : Xem) (addr size ai : Nat) (it : Bool) (s : WBState)
        (r : OpRet (List Nat)) (s' : WBState), 1 ≤ size →
        burst_read xem addr size ai it false s = (.ok r, s') →
          s'.cmd_queue = [] ∧ s'.cmd_buffer = []) ∧
    (∀ (xem : Xem) (addr d ai : Nat) (it : Bool) (s : WBState),
        burst_write xem addr [d] ai it s = write xem addr d it s) ∧
    (∀ (xem : Xem) (addr ai : Nat) (data : List Nat) (it : Bool) (s s' : WBState),
        2 ≤ data.length → burst_write xem addr data ai it s = (none, s') →
          s'.cmd_queue ≠ []) := by
  refine ⟨?_, ?_, ?_, ?_, fun xem addr d ai it s => rfl, ?_⟩
  · intro xem addr d it s s' hw
    rcases he : _encode s.seq 1 1 (boolInt it) 0 addr 0xdeadbeef (.scalar d) with ⟨er, seq'⟩
    unfold write at hw
    rw [he] at hw
    cases er with
    | error e => simp at hw
    | ok hc =>
      rcases hc with ⟨header, cmd⟩
      dsimp only [] at hw
      rcases hq : queue xem cmd 16 (writeHandle header addr) { s with seq := seq' }
        with ⟨qe, s2⟩
      rw [hq] at hw
      cases qe with
      | some e => simp at hw
      | none =>
        dsimp only [] at hw
        simp only [Prod.mk.injEq] at hw
        have hne := queue_none_ne_nil _ _ _ _ _ _ hq
        have hcl := flush_err_none_clears xem s2 hne hw.1
        have hm : s.log.length ≤ s2.log.length := by
          simpa using queue_none_log_mono _ _ _ _ _ _ hq
        rw [← hw.2]
        refine ⟨hcl.1, hcl.2.1, hcl.2.2.1, ?_⟩
        rw [hcl.2.2.2]
        simp only [List.length_append, List.length_singleton]
        omega
  · intro xem addr it s r s' h
    rcases read_eager_ok xem addr it s r s' h with ⟨-, h1, h2, -⟩
    exact ⟨h1, h2⟩
  · intro xem addr d mask it s r s' h
    rcases modify_eager_ok xem addr d mask it s r s' h with ⟨-, h1, h2, -⟩
    exact ⟨h1, h2⟩
  · intro xem addr size ai it s r s' hsz h
    rcases Nat.lt_or_ge size 2 with hlt | hge
    · have hsz1 : size = 1 := by omega
      subst hsz1
      have hone : burst_read xem addr 1 ai it false s =
          (match read xem addr it false s with
           | (Except.ok r, s1) => (Except.ok (r.mapVal fun w => [w]), s1)
           | (Except.error e, s1) => (Except.error e, s1)) := rfl
      rw [hone] at h
      rcases hr : read xem addr it false s with ⟨rr, s1⟩
      rw [hr] at h
      cases rr with
      | error e => simp at h
      | ok v =>
        simp only [Prod.mk.injEq] at h
        rcases read_eager_ok xem addr it s v s1 hr with ⟨-, h1, h2, -⟩
        rw [← h.2]
        exact ⟨h1, h2⟩
    · rcases burst_read_eager_ok xem addr size ai it s r s' hge h with ⟨h1, h2, -⟩
      exact ⟨h1, h2⟩
  · intro xem addr ai data it s s' h2 hb
    rcases he : _encode s.seq 1 (data.length : Int) (boolInt it) (ai : Int) addr
        0xdeadbeef (.list data) with ⟨er, seq'⟩
    unfold burst_write at hb
    rw [if_neg (by omega), if_neg (by omega), he] at hb
    cases er with
    | error e => simp at hb
    | ok hc =>
      rcases hc with ⟨header, cmd⟩
      dsimp only [] at hb
      exact queue_none_ne_nil _ _ _ _ _ _ hb

/-- C7 witness: the `write` part of `C7_eager_flush` applied to a
concrete eager write against the echoing oracle. -/
theorem C7_eager_flush_witness :
    sWrite.cmd_queue = [] ∧ sWrite.cmd_buffer = [] ∧ sWrite.cmd_queue_output_size = 0 ∧
      initialState.log.length < sWrite.log.length :=
  C7_eager_flush.1 xemEcho 0x1000 0xCAFEBABE false initialState sWrite rfl

/-! ## C9: burst operations of size 0 and 1 -/

/-- C9: for every address, `burst_read` of size 0 returns the empty
result without touching any state and `burst_write` of an empty list is a
no-op; `burst_read` of size 1 is exactly a scalar eager `read` wrapped in
a one-element list and `burst_write` of a one-element list is exactly a
scalar `write` of that element — no burst framing. -/
theorem C9_size_degradation :
    (∀ (xem : Xem) (addr addr_incr : Nat) (it fut : Bool) (s : WBState),
        burst_read xem addr 0 addr_incr it fut s = (.ok (.value []), s)) ∧
    (∀ (xem : Xem) (addr addr_incr : Nat) (it : Bool) (s : WBState),
        burst_write xem addr [] addr_incr it s = (none, s)) ∧
    (∀ (xem : Xem) (addr addr_incr : Nat) (it fut : Bool) (s : WBState),
        burst_read xem addr 1 addr_incr it fut s =
          (let p := read xem addr it false s
           (p.1.map (OpRet.mapVal (fun w => [w])), p.2))) ∧
    (∀ (xem : Xem) (addr d addr_incr : Nat) (it : Bool) (s : WBState),
        burst_write xem addr [d] addr_incr it s = write xem addr d it s) := by
  refine ⟨fun xem addr ai it fut s => rfl, fun xem addr ai it s => rfl, ?_,
    fun xem addr d ai it s => rfl⟩
  intro xem addr ai it fut s
  show (match read xem addr it false s with
        | (Except.ok r, s1) => (Except.ok (r.mapVal fun w => [w]), s1)
        | (Except.error e, s1) => (Except.error e, s1)) = _
  rcases read xem addr it false s with ⟨r, s1⟩
  cases r <;> rfl

/-! ## C10: burst_read future mode at sizes 0 and 1 -/

/-- C10: `burst_read` with `future=True` and size 0 returns the empty
list itself; with size 1 the `future` flag is ignored — the eager scalar
read runs, flushing at once, and the caller gets a one-element list of
the decoded value; in neither case is an accessor returned, unlike
`future=True` with size 2 and more. -/
theorem C10_future_degenerate :
    (∀ (xem : Xem) (addr addr_incr : Nat) (it : Bool) (s : WBState),
        burst_read xem addr 0 addr_incr it true s = (.ok (.value []), s)) ∧
    (∀ (xem : Xem) (addr addr_incr : Nat) (it : Bool) (s : WBState),
        burst_read xem addr 1 addr_incr it true s =
          burst_read xem addr 1 addr_incr it false s) ∧
    (∀ (xem : Xem) (addr addr_incr sz : Nat) (it : Bool) (s : WBState), sz ≤ 1 →
        ∀ (f : WBState → Except WBError (List Nat) × WBState) (s' : WBState),
          burst_read xem addr sz addr_incr it true s ≠ (.ok (.accessor f), s')) ∧
    (∀ (xem : Xem) (addr addr_incr : Nat) (it : Bool) (s : WBState)
        (l : List Nat) (s' : WBState),
        burst_read xem addr 1 addr_incr it true s = (.ok (.value l), s') →
          l.length = 1 ∧ s'.cmd_queue = [] ∧ s'.cmd_buffer = [] ∧
            s'.cmd_queue_output_size = 0) ∧
    (∀ (xem : Xem), ∃ f s',
        burst_read xem 0 2 1 false true initialState = (.ok (.accessor f), s')) := by
  have hone : ∀ (xem : Xem) (addr ai : Nat) (it : Bool) (fut : Bool) (s : WBState),
      burst_read xem addr 1 ai it fut s =
        (match read xem addr it false s with
         | (Except.ok r, s1) => (Except.ok (r.mapVal fun w => [w]), s1)
         | (Except.error e, s1) => (Except.error e, s1)) := fun xem addr ai it fut s => rfl
  refine ⟨fun xem addr ai it s => rfl, ?_, ?_, ?_, ?_⟩
  · intro xem addr ai it s
    rw [hone, hone]
  · intro xem addr ai sz it s hsz f s'
    interval_cases sz
    · intro h
      simp [burst_read] at h
    · rw [hone]
      rcases hr : read xem addr it false s with ⟨r, s1⟩
      cases r with
      | error e => simp
      | ok v =>
        rcases read_eager_ok xem addr it s v s1 hr with ⟨⟨w, hw⟩, -⟩
        subst hw
        simp [OpRet.mapVal]
  · intro xem addr ai it s l s' h
    rw [hone] at h
    rcases hr : read xem addr it false s with ⟨r, s1⟩
    rw [hr] at h
    cases r with
    | error e => simp at h
    | ok v =>
      rcases read_eager_ok xem addr it s v s1 hr with ⟨⟨w, hw⟩, hcl⟩
      subst hw
      simp only [OpRet.mapVal, Except.ok.injEq, Prod.mk.injEq, OpRet.value.injEq] at h
      rcases h with ⟨hl, hs⟩
      subst hs
      rw [← hl]
      exact ⟨rfl, hcl⟩
  · intro xem
    exact ⟨fetchWords xem 0,
      { seq := 1,
        cmd_queue := [(32, burstReadHandle 16777224 0 2 1 8)],
        cmd_buffer := [8, 0, 0, 1, 0, 0, 0, 0, 239, 190, 173, 222, 0, 0, 0, 0],
        cmd_queue_output_size := 32, log := [] }, rfl⟩

/-- C10 witness: `C10_future_degenerate` applied to a concrete size-1
`future=True` burst read against `xemRead77`: the result is the decoded
one-element list, not an accessor, with the queue drained. -/
theorem C10_future_degenerate_witness :
    burst_read xemRead77 0 1 1 false true initialState ≠
        (.ok (.accessor (fetchWords xemRead77 0)), initialState) ∧
      (([77] : List Nat).length = 1 ∧ sRead77.cmd_queue = [] ∧ sRead77.cmd_buffer = [] ∧
        sRead77.cmd_queue_output_size = 0) :=
  ⟨C10_future_degenerate.2.2.1 xemRead77 0 1 1 false initialState (by decide)
      (fetchWords xemRead77 0) initialState,
   C10_future_degenerate.2.2.2.1 xemRead77 0 1 false initialState [77] sRead77 rfl⟩

end OkWishbone
